import Mathlib

/-!
Verification of the change-stream pipeline of
`src/firestore/collection/collection.ts` (AngularFirestoreCollection).

The source file in scope is `collection.ts`.  Its helpers `docChanges`,
`sortedChanges` (module `./changes`) and `fromCollectionRef`
(module `../observable/fromRef`) are repository code outside the provided
sources, so they are modelled from the specification (sections 3, 4.1, 4.2
and 6 of the design document).  Streams are embedded as the list of values
they emit for a given finite list of store notifications; the stability
adapter (`keepUnstableUntilFirst`) and the schedulers affect timing only,
never the emitted values, and are modelled as the identity on emissions.
-/

namespace AngularFirestore

/-- The three change kinds of the store's notification contract
(`DocumentChangeType` in `interfaces.ts`). -/
inductive DocumentChangeType
  | added
  | modified
  | removed
deriving DecidableEq, Repr

/-- A JS object is modelled as an association list of field assignments,
first occurrence of a key wins on lookup (as in a JS object literal there
is at most one occurrence of a key). -/
abbrev Obj := List (String × String)

/-- Field lookup on a modelled JS object. -/
def Obj.get (o : Obj) (k : String) : Option String :=
  (o.find? (fun p => p.1 = k)).map (fun p => p.2)

/-- JS object spread `{...o, [k]: v}`: if `k` already occurs in `o` its
value is replaced in place, otherwise `(k, v)` is appended. -/
def Obj.spreadSet (o : Obj) (k v : String) : Obj :=
  if (o.find? (fun p => p.1 = k)).isSome then
    o.map (fun p => if p.1 = k then (k, v) else p)
  else
    o ++ [(k, v)]

/-- A document snapshot: the store-assigned id together with the document
data (`a.id` and `a.data()` in the source). -/
structure Doc where
  id : String
  data : Obj
deriving DecidableEq, Repr

/-- One change record of a notification batch (spec section 3,
`ChangeRecord`): change kind, affected document, position before and after
the change (`-1` when not applicable). -/
structure DocumentChange where
  type : DocumentChangeType
  doc : Doc
  oldIndex : Int
  newIndex : Int
deriving DecidableEq, Repr

/-- One raw store notification (spec section 6): the full current match
list plus the per-document change metadata since the previous
notification. -/
structure QuerySnapshot where
  docs : List Doc
  docChanges : List DocumentChange
deriving DecidableEq, Repr

/-- `validateEventsArray` from `collection.ts` lines 11–16: an absent or
empty events argument defaults to all three change kinds. -/
def validateEventsArray (events : Option (List DocumentChangeType)) :
    List DocumentChangeType :=
  match events with
  | none => [.added, .removed, .modified]
  | some es => if es.length = 0 then [.added, .removed, .modified] else es

/-- Modelled from the spec: `docChanges` of the missing module `changes.ts`
(spec sections 2 and 4.1, Change Diff Emitter) — for each remote
notification emit that notification's batch of change records, unchanged
and unfiltered. -/
def docChangesStream (ns : List QuerySnapshot) : List (List DocumentChange) :=
  ns.map (fun n => n.docChanges)

/-- Modelled from the spec: the Stability Coordinator Adapter
(`keepUnstableUntilFirst`, spec section 4.4) gates framework stabilization
but passes every emitted value through unchanged. -/
def keepUnstableUntilFirst (emissions : List α) : List α :=
  emissions

/-- `stateChanges` from `collection.ts` lines 63–74: with an absent or
empty events argument the underlying change batches are forwarded
unchanged; otherwise each batch is filtered to the requested change kinds
(`events.indexOf(change.type) > -1`) and batches emptied by the filter are
suppressed (`filter(changes => changes.length > 0)`). -/
def stateChanges (events : Option (List DocumentChangeType))
    (ns : List QuerySnapshot) : List (List DocumentChange) :=
  match events with
  | none => keepUnstableUntilFirst (docChangesStream ns)
  | some es =>
    if es.length = 0 then keepUnstableUntilFirst (docChangesStream ns)
    else
      keepUnstableUntilFirst
        (((docChangesStream ns).map
            (fun actions => actions.filter (fun change => es.contains change.type))).filter
          (fun changes => decide (changes.length > 0)))

/-- `auditTrail` from `collection.ts` lines 81–83:
`stateChanges(events).pipe(scan((current, action) => [...current, ...action], []))`.
`scan` emits the accumulator once per source emission, starting from the
empty seed. -/
def auditTrail (events : Option (List DocumentChangeType))
    (ns : List QuerySnapshot) : List (List DocumentChange) :=
  ((stateChanges events ns).scanl (fun current action => current ++ action) []).tail

/-- Modelled from the spec: one step of the Ordered State Reconstructor of
the missing module `changes.ts` (spec section 4.2) — `Removed` at
`oldIndex` deletes that slot; `Added` at `newIndex` inserts at that slot;
`Modified` removes from `oldIndex` and re-inserts at `newIndex`. -/
def combineChange (current : List Doc) (change : DocumentChange) : List Doc :=
  match change.type with
  | .added => current.insertIdx change.newIndex.toNat change.doc
  | .removed => current.eraseIdx change.oldIndex.toNat
  | .modified =>
    (current.eraseIdx change.oldIndex.toNat).insertIdx change.newIndex.toNat change.doc

/-- Modelled from the spec: apply one notification batch to the
reconstructed ordered sequence, in the exact order delivered by the store
(spec sections 4.2 and 9), restricted to the requested change kinds. -/
def combineChanges (current : List Doc) (batch : List DocumentChange)
    (events : List DocumentChangeType) : List Doc :=
  batch.foldl
    (fun cur change =>
      if events.contains change.type then combineChange cur change else cur)
    current

/-- Modelled from the spec: `sortedChanges` of the missing module
`changes.ts` (spec section 4.2, Ordered State Reconstructor) — seeded
empty, apply each notification's batch and emit the full reconstructed
ordered result set after every notification. -/
def sortedChanges (events : List DocumentChangeType)
    (ns : List QuerySnapshot) : List (List Doc) :=
  (ns.scanl (fun current n => combineChanges current n.docChanges events) []).tail

/-- `snapshotChanges` from `collection.ts` lines 90–96: validate the
events argument, then the Ordered State Reconstructor's output through the
stability adapter. -/
def snapshotChanges (events : Option (List DocumentChangeType))
    (ns : List QuerySnapshot) : List (List Doc) :=
  keepUnstableUntilFirst (sortedChanges (validateEventsArray events) ns)

/-- `valueChanges` from `collection.ts` lines 105–123: map each
notification's full match list to plain document data, merging the
store-assigned id under `idField` when that option is provided
(`{...a.data(), [options.idField]: a.id}`). -/
def valueChanges (idField : Option String) (ns : List QuerySnapshot) :
    List (List Obj) :=
  keepUnstableUntilFirst
    (ns.map (fun n =>
      n.docs.map (fun a =>
        match idField with
        | some k => Obj.spreadSet a.data k a.id
        | none => a.data)))

/-- `get` from `collection.ts` lines 129–133:
`from(this.query.get(options)).pipe(observeOn(...))`.  The underlying
one-shot fetch either resolves with the result list or rejects with a
store error (spec sections 6 and 7); `from` emits the resolved value and
completes, or emits nothing and errors, and `observeOn` reschedules
without changing values or errors.  The result is the pair of the emitted
values and the terminal error, if any. -/
def get (fetch : Except String (List Doc)) :
    List (List Doc) × Option String :=
  match fetch with
  | .ok docs => ([docs], none)
  | .error e => ([], some e)

/-- `ys` extends `xs` by appending only: `xs` is an initial segment of
`ys`. -/
def appendOnly (xs ys : List α) : Prop :=
  ∃ t, ys = xs ++ t

/-- State of the reconstructor after consistently processing a run of
notifications: each notification's change metadata, applied to the
previous state, must yield exactly the notification's declared full match
list (the store's notification contract, spec sections 3 and 4.1). -/
def consistentRun (s : List Doc) : List QuerySnapshot → Bool
  | [] => true
  | n :: rest =>
    (combineChanges s n.docChanges [.added, .removed, .modified] == n.docs)
      && consistentRun n.docs rest

/-- Document A of the spec's concrete scenario. -/
def docA : Doc := ⟨"A", [("name", "a")]⟩

/-- Document B of the spec's concrete scenario. -/
def docB : Doc := ⟨"B", [("name", "b")]⟩

/-- Document C of the spec's concrete scenario. -/
def docC : Doc := ⟨"C", [("name", "c")]⟩

/-- Scenario notification 1: three Added records (A, B, C at indices
0, 1, 2). -/
def notif1 : QuerySnapshot :=
  ⟨[docA, docB, docC],
   [⟨.added, docA, -1, 0⟩, ⟨.added, docB, -1, 1⟩, ⟨.added, docC, -1, 2⟩]⟩

/-- Scenario notification 2: Removed B (oldIndex 1). -/
def notif2 : QuerySnapshot := ⟨[docA, docC], [⟨.removed, docB, 1, -1⟩]⟩

/-- Scenario notification 3: Modified A (oldIndex 0, newIndex 1, the sort
order changed). -/
def notif3 : QuerySnapshot := ⟨[docC, docA], [⟨.modified, docA, 0, 1⟩]⟩

/-- A store notification whose change batch is empty. -/
def emptyNotif : QuerySnapshot := ⟨[], []⟩

/-- Element `k` of a `scanl` (for `k ≤ length`) is the fold of the first
`k` inputs. -/
theorem scanl_getElem? (f : β → α → β) :
    ∀ (l : List α) (b : β) (k : Nat), k ≤ l.length →
      (l.scanl f b)[k]? = some ((l.take k).foldl f b)
  | l, b, 0, _ => by cases l <;> simp [List.scanl]
  | [], _, k + 1, h => by simp at h
  | a :: l, b, k + 1, h => by
    simp only [List.scanl, List.getElem?_cons_succ, List.take_succ_cons, List.foldl_cons]
    exact scanl_getElem? f l (f b a) k (by simp at h; omega)

/-- Element `k` of the tail of a `scanl` is the fold of the first `k + 1`
inputs: the `k`-th emission of an rxjs `scan` over a finite source. -/
theorem scanl_tail_getD (f : β → α → β) (l : List α) (b : β) (k : Nat) (d : β)
    (h : k < l.length) :
    ((l.scanl f b).tail).getD k d = (l.take (k + 1)).foldl f b := by
  cases l with
  | nil => simp at h
  | cons a l =>
    rw [List.getD_eq_getElem?_getD]
    simp only [List.scanl, List.tail_cons]
    rw [scanl_getElem? f l (f b a) k (by simp at h; omega)]
    simp

/-- Folding list concatenation is flattening. -/
theorem foldl_append_eq (l : List (List α)) (init : List α) :
    l.foldl (fun current action => current ++ action) init = init ++ l.flatten := by
  induction l generalizing init with
  | nil => simp
  | cons b l ih => simp [ih, List.append_assoc]

/-- Flattening batchwise-filtered batches equals filtering the flat
stream. -/
theorem flatten_map_filter (p : α → Bool) (l : List (List α)) :
    (l.map (fun b => b.filter p)).flatten = l.flatten.filter p := by
  induction l with
  | nil => rfl
  | cons b l ih =>
    rw [List.map_cons, List.flatten_cons, List.flatten_cons, List.filter_append, ih]

/-- Dropping empty batches does not change the flat stream. -/
theorem flatten_filter_pos (l : List (List α)) :
    (l.filter (fun b => decide (b.length > 0))).flatten = l.flatten := by
  induction l with
  | nil => rfl
  | cons b l ih =>
    cases b with
    | nil => simpa using ih
    | cons x b => simpa using ih

/-- Every change record's kind is in the full default filter. -/
theorem all_types_contains (c : DocumentChange) :
    ([DocumentChangeType.added, .removed, .modified]).contains c.type = true := by
  rcases c with ⟨t, d, o, n⟩
  cases t <;> rfl

/-- Filtering a batch to the full default filter changes nothing. -/
theorem map_filter_all_types (l : List (List DocumentChange)) :
    l.map (fun actions => actions.filter
        (fun change => ([DocumentChangeType.added, .removed, .modified]).contains change.type))
      = l := by
  induction l with
  | nil => rfl
  | cons b l ih =>
    rw [List.map_cons, ih]
    congr 1
    exact List.filter_eq_self.mpr (fun c _ => all_types_contains c)

/-- Looking up a key appended to an object that lacks it finds the
appended value. -/
theorem get_append_new (o : Obj) (k v : String)
    (h : o.find? (fun p => decide (p.1 = k)) = none) :
    Obj.get (o ++ [(k, v)]) k = some v := by
  induction o with
  | nil =>
    show Obj.get [(k, v)] k = some v
    unfold Obj.get
    rw [List.find?_cons_of_pos _ (by simp)]
    rfl
  | cons p o ih =>
    by_cases hp : p.1 = k
    · rw [List.find?_cons_of_pos _ (by simpa using hp)] at h
      cases h
    · rw [List.find?_cons_of_neg _ (by simpa using hp)] at h
      show Obj.get (p :: (o ++ [(k, v)])) k = some v
      unfold Obj.get
      rw [List.find?_cons_of_neg _ (by simpa using hp)]
      exact ih h

/-- Looking up a key replaced in place finds the replacement value. -/
theorem get_map_replace (o : Obj) (k v : String)
    (h : (o.find? (fun p => decide (p.1 = k))).isSome = true) :
    Obj.get (o.map (fun p => if p.1 = k then (k, v) else p)) k = some v := by
  induction o with
  | nil => simp [List.find?] at h
  | cons p o ih =>
    rw [List.map_cons]
    by_cases hp : p.1 = k
    · rw [if_pos hp]
      unfold Obj.get
      rw [List.find?_cons_of_pos _ (by simp)]
      rfl
    · rw [List.find?_cons_of_neg _ (by simpa using hp)] at h
      rw [if_neg hp]
      unfold Obj.get
      rw [List.find?_cons_of_neg _ (by simpa using hp)]
      exact ih h

/-- JS spread `{...o, [k]: v}` always exposes `v` under key `k`. -/
theorem Obj.get_spreadSet (o : Obj) (k v : String) :
    Obj.get (Obj.spreadSet o k v) k = some v := by
  unfold Obj.spreadSet
  split
  · rename_i h
    exact get_map_replace o k v h
  · rename_i h
    exact get_append_new o k v (Option.not_isSome_iff_eq_none.mp h)

/-- Under a consistent run, the reconstructor's fold over the first
`i + 1` notifications yields notification `i`'s declared match list. -/
theorem consistent_fold :
    ∀ (ns : List QuerySnapshot) (s : List Doc), consistentRun s ns = true →
      ∀ i, i < ns.length →
        ((ns.take (i + 1)).foldl
            (fun current n =>
              combineChanges current n.docChanges [.added, .removed, .modified]) s)
          = (ns.getD i ⟨[], []⟩).docs
  | [], _, _, i, hi => by simp at hi
  | n :: rest, s, h, i, hi => by
    simp only [consistentRun, Bool.and_eq_true, beq_iff_eq] at h
    cases i with
    | zero => simpa using h.1
    | succ i =>
      simp only [List.take_succ_cons, List.foldl_cons, List.getD_cons_succ]
      rw [h.1]
      exact consistent_fold rest n.docs h.2 i (by simp at hi; omega)

/-- The audit log after `k + 1` raw-delta emissions is the concatenation
of the first `k + 1` filtered batches. -/
theorem audit_getD (events : Option (List DocumentChangeType)) (ns : List QuerySnapshot)
    (k : Nat) (h : k < (stateChanges events ns).length) :
    (auditTrail events ns).getD k [] = ((stateChanges events ns).take (k + 1)).flatten := by
  show (((stateChanges events ns).scanl (fun current action => current ++ action) []).tail).getD k []
      = _
  rw [scanl_tail_getD _ _ _ _ _ h, foldl_append_eq]
  simp

/-- C1: for every consistent sequence of store notifications, the
ordered-snapshot view emits after each notification exactly the store's
declared result set in the store's sort order; and on the concrete run
(add A, B, C at 0, 1, 2), (remove B at oldIndex 1), (modify A from
oldIndex 0 to newIndex 1) it emits [A, B, C], then [A, C], then
[C, A]. -/
theorem ordered_snapshot_matches_store :
    (∀ ns : List QuerySnapshot, consistentRun [] ns = true →
      ∀ i, i < ns.length →
        (snapshotChanges none ns).getD i [] = (ns.getD i ⟨[], []⟩).docs)
    ∧ snapshotChanges none [notif1, notif2, notif3]
        = [[docA, docB, docC], [docA, docC], [docC, docA]] := by
  constructor
  · intro ns h i hi
    show ((ns.scanl (fun current n =>
        combineChanges current n.docChanges [.added, .removed, .modified]) []).tail).getD i []
        = _
    rw [scanl_tail_getD _ _ _ _ _ hi]
    exact consistent_fold ns [] h i hi
  · rfl

/-- Witness for C1 at the concrete three-notification run. -/
theorem ordered_snapshot_matches_store_witness :
    (snapshotChanges none [notif1, notif2, notif3]).getD 1 []
      = ([notif1, notif2, notif3].getD 1 ⟨[], []⟩).docs :=
  ordered_snapshot_matches_store.1 [notif1, notif2, notif3] (by decide) 1 (by decide)

/-- C2 counterexample: with an absent events argument, a store
notification whose change batch is empty is forwarded as an empty batch,
so the raw-deltas view does emit an empty batch. -/
theorem raw_deltas_empty_batch_cex :
    [] ∈ stateChanges none [emptyNotif] := by decide

/-- C2 (amended): when a non-empty events argument is supplied, the
raw-deltas view never emits an empty batch — every emission that the
filter empties is suppressed. -/
theorem raw_deltas_nonempty_filter_no_empty_batch (es : List DocumentChangeType)
    (ns : List QuerySnapshot) (hes : es ≠ [])
    (b : List DocumentChange) (hb : b ∈ stateChanges (some es) ns) :
    b ≠ [] := by
  simp only [stateChanges, keepUnstableUntilFirst] at hb
  rw [if_neg (fun hz => hes (List.length_eq_zero.mp hz))] at hb
  have hpos := List.of_mem_filter hb
  simp only [decide_eq_true_eq, gt_iff_lt] at hpos
  exact List.length_pos.mp hpos

/-- Witness for the amended C2 at a concrete filtered run. -/
theorem raw_deltas_nonempty_filter_no_empty_batch_witness :
    notif1.docChanges ≠ [] :=
  raw_deltas_nonempty_filter_no_empty_batch [.added] [notif1] (by decide)
    notif1.docChanges (by decide)

/-- C3: the audit-log view emits once per raw-delta emission, its `k`-th
emission has length the sum of the sizes of the first `k` filtered
batches, and every emission is an initial segment of every later emission
(records are only appended). -/
theorem audit_trail_cumulative (events : Option (List DocumentChangeType))
    (ns : List QuerySnapshot) :
    (auditTrail events ns).length = (stateChanges events ns).length
    ∧ (∀ k, k < (stateChanges events ns).length →
        ((auditTrail events ns).getD k []).length
          = (((stateChanges events ns).take (k + 1)).map List.length).sum)
    ∧ (∀ i j, i ≤ j → j < (stateChanges events ns).length →
        appendOnly ((auditTrail events ns).getD i []) ((auditTrail events ns).getD j [])) := by
  refine ⟨?_, ?_, ?_⟩
  · show (((stateChanges events ns).scanl (fun current action => current ++ action) []).tail).length
        = _
    rw [List.length_tail, List.length_scanl]
    simp
  · intro k hk
    rw [audit_getD events ns k hk, List.length_flatten]
  · intro i j hij hj
    rw [audit_getD events ns i (lt_of_le_of_lt hij hj), audit_getD events ns j hj]
    refine ⟨(((stateChanges events ns).drop (i + 1)).take (j - i)).flatten, ?_⟩
    have hsplit : j + 1 = (i + 1) + (j - i) := by omega
    rw [hsplit, List.take_add, List.flatten_append]

/-- Witness for C3 on a concrete two-notification run. -/
theorem audit_trail_cumulative_witness :
    ((auditTrail none [notif1, notif2]).getD 1 []).length
      = (((stateChanges none [notif1, notif2]).take 2).map List.length).sum
    ∧ appendOnly ((auditTrail none [notif1, notif2]).getD 0 [])
        ((auditTrail none [notif1, notif2]).getD 1 []) :=
  ⟨(audit_trail_cumulative none [notif1, notif2]).2.1 1 (by decide),
   (audit_trail_cumulative none [notif1, notif2]).2.2 0 1 (by decide) (by decide)⟩

/-- C4: `stateChanges(['added'])` emits exactly the records of
`stateChanges()` whose type is added, batch by batch, with emissions
differing from the unfiltered view only by suppression of batches the
filter empties; consequently the flattened filtered stream is the added
subsequence of the flattened unfiltered stream. -/
theorem filtering_law_added (ns : List QuerySnapshot) :
    stateChanges (some [.added]) ns
      = ((stateChanges none ns).map
            (fun b => b.filter (fun c => c.type == DocumentChangeType.added))).filter
          (fun b => decide (b.length > 0))
    ∧ (stateChanges (some [.added]) ns).flatten
      = (stateChanges none ns).flatten.filter
          (fun c => c.type == DocumentChangeType.added) := by
  have h1 : stateChanges (some [.added]) ns
      = ((stateChanges none ns).map
            (fun b => b.filter (fun c => c.type == DocumentChangeType.added))).filter
          (fun b => decide (b.length > 0)) := by
    show (((docChangesStream ns).map
        (fun actions => actions.filter
          (fun change => ([DocumentChangeType.added]).contains change.type))).filter
        (fun changes => decide (changes.length > 0))) = _
    congr 1
    apply List.map_congr_left
    intro b _
    apply List.filter_congr
    intro c _
    rcases c with ⟨t, d, o, n⟩
    cases t <;> rfl
  exact ⟨h1, by rw [h1, flatten_filter_pos, flatten_map_filter]⟩

/-- C5 counterexample: an empty underlying batch is forwarded by the
default (absent) events argument but suppressed by the explicit full
filter, so the two streams are not identical. -/
theorem default_vs_full_filter_cex :
    stateChanges none [emptyNotif]
      ≠ stateChanges (some [.added, .removed, .modified]) [emptyNotif] := by
  decide

/-- C5 (amended): for `snapshotChanges`, an absent or empty events
argument behaves identically to the explicit full filter; for
`stateChanges` and `auditTrail`, absent behaves identically to empty, and
both agree with the explicit full filter whenever no underlying batch is
empty — the explicit full filter additionally suppresses empty underlying
batches. -/
theorem default_filter_equivalence (ns : List QuerySnapshot) :
    snapshotChanges (some []) ns = snapshotChanges none ns
    ∧ snapshotChanges (some [.added, .removed, .modified]) ns = snapshotChanges none ns
    ∧ stateChanges (some []) ns = stateChanges none ns
    ∧ auditTrail (some []) ns = auditTrail none ns
    ∧ ((∀ n ∈ ns, n.docChanges ≠ []) →
        stateChanges (some [.added, .removed, .modified]) ns = stateChanges none ns
        ∧ auditTrail (some [.added, .removed, .modified]) ns = auditTrail none ns) := by
  refine ⟨rfl, rfl, rfl, rfl, fun hne => ?_⟩
  have hstate : stateChanges (some [.added, .removed, .modified]) ns
      = stateChanges none ns := by
    show (((docChangesStream ns).map
        (fun actions => actions.filter
          (fun change =>
            ([DocumentChangeType.added, .removed, .modified]).contains change.type))).filter
        (fun changes => decide (changes.length > 0))) = docChangesStream ns
    rw [map_filter_all_types]
    apply List.filter_eq_self.mpr
    intro b hb
    rcases List.mem_map.mp hb with ⟨n, hn, rfl⟩
    simp only [decide_eq_true_eq, gt_iff_lt, List.length_pos]
    exact hne n hn
  refine ⟨hstate, ?_⟩
  unfold auditTrail
  rw [hstate]

/-- Witness for the amended C5 at a concrete all-batches-non-empty run. -/
theorem default_filter_equivalence_witness :
    stateChanges (some [.added, .removed, .modified]) [notif1] = stateChanges none [notif1]
    ∧ auditTrail (some [.added, .removed, .modified]) [notif1] = auditTrail none [notif1] :=
  (default_filter_equivalence [notif1]).2.2.2.2
    (by intro n hn; rw [List.mem_singleton] at hn; subst hn; decide)

/-- C6: `valueChanges` with an idField option emits each notification's
full match list as data objects merged with the store-assigned id under
the named field, and without the option emits the plain data objects; in
particular `valueChanges({idField: 'id'})` on result list [{name: 'x'}]
with document id "doc1" emits [{name: 'x', id: 'doc1'}]. -/
theorem value_changes_id_merge :
    valueChanges (some "id") [⟨[⟨"doc1", [("name", "x")]⟩], []⟩]
        = [[[("name", "x"), ("id", "doc1")]]]
    ∧ (∀ ns : List QuerySnapshot, valueChanges none ns
        = ns.map (fun n => n.docs.map (fun a => a.data)))
    ∧ (∀ (k : String) (ns : List QuerySnapshot), valueChanges (some k) ns
        = ns.map (fun n => n.docs.map (fun a => Obj.spreadSet a.data k a.id)))
    ∧ (∀ (a : Doc) (k : String), Obj.get (Obj.spreadSet a.data k a.id) k = some a.id) :=
  ⟨rfl, fun _ => rfl, fun _ _ => rfl, fun a k => Obj.get_spreadSet a.data k a.id⟩

/-- C7: reconstruction is deterministic — two independent ordered-snapshot
subscriptions receiving identical input notification sequences with the
same events argument emit identical ordered snapshots at every step. -/
theorem snapshot_reconstruction_deterministic (events : Option (List DocumentChangeType))
    (ns₁ ns₂ : List QuerySnapshot) (h : ns₁ = ns₂) :
    snapshotChanges events ns₁ = snapshotChanges events ns₂
    ∧ ∀ i, (snapshotChanges events ns₁).getD i []
        = (snapshotChanges events ns₂).getD i [] := by
  subst h
  exact ⟨rfl, fun _ => rfl⟩

/-- Witness for C7 at the concrete three-notification run. -/
theorem snapshot_reconstruction_deterministic_witness :
    snapshotChanges none [notif1, notif2, notif3]
      = snapshotChanges none [notif1, notif2, notif3] :=
  (snapshot_reconstruction_deterministic none [notif1, notif2, notif3]
    [notif1, notif2, notif3] rfl).1

/-- C8: the one-shot read surfaces the underlying store error on a failed
fetch and emits no value at all in that case; a successful fetch emits
exactly the result once with no error. -/
theorem get_rejects_no_partial (e : String) (docs : List Doc) :
    get (Except.error e) = ([], some e) ∧ get (Except.ok docs) = ([docs], none) :=
  ⟨rfl, rfl⟩

/-- C9: with an absent or empty events argument, `stateChanges` forwards
every underlying batch unchanged — no per-record filtering and no
empty-batch suppression is applied on that branch. -/
theorem state_changes_default_forwards (ns : List QuerySnapshot) :
    stateChanges none ns = ns.map (fun n => n.docChanges)
    ∧ stateChanges (some []) ns = ns.map (fun n => n.docChanges) :=
  ⟨rfl, rfl⟩

/-- C10: when a document's data already contains a field named like the
idField, `valueChanges({idField})` emits the store-assigned document id at
that field — the id merge overwrites the data field. -/
theorem idfield_overwrites_data_field (a : Doc) (k w : String)
    (h : Obj.get a.data k = some w) :
    Obj.get (Obj.spreadSet a.data k a.id) k = some a.id
    ∧ valueChanges (some k) [⟨[a], []⟩] = [[Obj.spreadSet a.data k a.id]] :=
  ⟨Obj.get_spreadSet a.data k a.id, rfl⟩

/-- Witness for C10 at a document whose data carries a conflicting id
field. -/
theorem idfield_overwrites_data_field_witness :
    Obj.get (Obj.spreadSet [("id", "OLD"), ("name", "x")] "id" "doc1") "id" = some "doc1"
    ∧ valueChanges (some "id") [⟨[⟨"doc1", [("id", "OLD"), ("name", "x")]⟩], []⟩]
        = [[Obj.spreadSet [("id", "OLD"), ("name", "x")] "id" "doc1"]] :=
  idfield_overwrites_data_field ⟨"doc1", [("id", "OLD"), ("name", "x")]⟩ "id" "OLD" rfl

end AngularFirestore
